import Mathlib

/-!
# Verification of the OutbreakTracking contract

A shallow embedding of `src/blockchain/contracts/OutbreakTracking.sol` and
proofs about it.

Modelling conventions:
* `uint256` quantities that the contract only ever keeps small (lengths,
  counts, distances, radii, timestamps) are `Nat`; `int256` coordinate
  arithmetic is `Int`, with Solidity's truncation-toward-zero division
  rendered as `Int.tdiv`.  Within the nominal coordinate ranges the
  contract is written for, none of the modelled `int256` operations can
  overflow, so unbounded integers are exact.
* A Solidity `revert` (failed `require`, or the checked-arithmetic panic
  raised by `uint8(b) - 48` underflowing on a byte below `'0'`) is the
  `Except.error` branch; both coordinate-parsing reverts are collapsed
  into `SolError.parseError`, the authorization `require` into
  `SolError.notAuthorized`.  EVM revert semantics roll the whole
  transaction back, which the `Except` encoding captures by never
  returning a state from the error branch.
* `block.timestamp` and `msg.sender` are explicit parameters (`now`,
  `caller`).
* `compareLocations` compares `keccak256` hashes of the two strings; it
  is modelled as string equality (keccak collision-freeness assumption).
-/

inductive SolError where
  | parseError : SolError
  | notAuthorized : SolError
  deriving DecidableEq, Repr

structure Coordinate where
  latitude : Int
  longitude : Int
  deriving DecidableEq, Repr

structure InfectedIndividual where
  individualAddress : Nat
  location : String
  testResult : Bool
  timestamp : Nat
  deriving DecidableEq, Repr

structure OutbreakLocation where
  location : String
  infectedCount : Nat
  timestamp : Nat
  deriving DecidableEq, Repr

structure RegistryState where
  owner : Nat
  outbreakRadius : Nat
  infectedIndividuals : List InfectedIndividual
  outbreakLocations : List OutbreakLocation
  deriving DecidableEq, Repr

inductive Notification where
  | newInfection (individualAddress : Nat) (location : String) (timestamp : Nat)
  | potentialOutbreak (location : String) (infectedCount : Nat) (timestamp : Nat)
  | proximityAlert (user : Nat) (userLocation : String) (outbreakLocation : String)
      (distance : Nat)
  deriving DecidableEq, Repr

/-- A decimal-digit byte test: `uint8(b) - 48` neither underflows nor
exceeds 9 exactly when the byte is one of `'0'..'9'`. -/
def isDig (c : Char) : Bool := decide (48 ≤ c.toNat ∧ c.toNat ≤ 57)

/-- The digit value of a byte, or the revert that
`uint8(strBytes[i]) - 48; require(digit <= 9, ...)` raises
(underflow panic for bytes below `'0'`, failed `require` above `'9'`). -/
def digitVal (c : Char) : Except SolError Int :=
  if isDig c then .ok (Int.ofNat (c.toNat - 48)) else .error .parseError

/-- The body of the scanning loop of `parseCoordinateValue`
(OutbreakTracking.sol lines 194-209), with loop state
`(result, decimalMultiplier, foundDecimal)`.  A `'.'` sets
`foundDecimal` and is otherwise skipped; before the decimal point a
digit does `result = result * 10 + digit`; after it the multiplier is
divided by 10 first and the digit is weighted by it. -/
def parseValueGo : List Char → Int → Int → Bool → Except SolError (Int × Int × Bool)
  | [], result, mult, foundDec => .ok (result, mult, foundDec)
  | c :: cs, result, mult, foundDec =>
    if c = '.' then parseValueGo cs result mult true
    else
      match digitVal c with
      | .error e => .error e
      | .ok d =>
        if foundDec then
          parseValueGo cs (result + d * (Int.tdiv mult 10)) (Int.tdiv mult 10) true
        else
          parseValueGo cs (result * 10 + d) mult false

/-- The check `if (strBytes.length > 0 && strBytes[0] == '-')` — strip a single
leading minus sign (OutbreakTracking.sol lines 185-188). -/
def stripNeg (cs : List Char) : Bool × List Char :=
  match cs with
  | [] => (false, [])
  | c :: rest => if c = '-' then (true, rest) else (false, c :: rest)

/-- Function `parseCoordinateValue` (OutbreakTracking.sol lines 179-220): parses a
decimal coordinate substring to an `int256` scaled by 10^6. -/
def parseCoordinateValue (str : String) : Except SolError Int :=
  let sn := stripNeg str.data
  match parseValueGo sn.2 0 1000000 false with
  | .error e => .error e
  | .ok (result, _, foundDec) =>
    let result2 := if foundDec then result else result * 1000000
    .ok (if sn.1 then -result2 else result2)

/-- The comma-locating loop of `parseCoordinate` (lines 145-151): the
index of the first `','`, if any. -/
def commaScan : List Char → Nat → Option Nat
  | [], _ => none
  | c :: cs, i => if c = ',' then some i else commaScan cs (i + 1)

/-- The `commaIndex` stays `0` when no comma is found (lines 145-151). -/
def commaIndexOf (bs : List Char) : Nat := (commaScan bs 0).getD 0

/-- Function `parseCoordinate` (OutbreakTracking.sol lines 141-164): split at the
first comma, `require(commaIndex > 0 && commaIndex < length - 1)`, then
parse both substrings (latitude first). -/
def parseCoordinate (location : String) : Except SolError Coordinate :=
  let bs := location.data
  let commaIndex := commaIndexOf bs
  if commaIndex > 0 ∧ commaIndex < bs.length - 1 then
    let latStr : String := ⟨bs.take commaIndex⟩
    let lonStr : String := ⟨(bs.drop (commaIndex + 1)).take (bs.length - commaIndex - 1)⟩
    match parseCoordinateValue latStr with
    | .error e => .error e
    | .ok la =>
      match parseCoordinateValue lonStr with
      | .error e => .error e
      | .ok lo => .ok ⟨la, lo⟩
  else .error .parseError

/-- The contract's `abs` helper (lines 281-283). -/
def solAbs (x : Int) : Int := if x ≥ 0 then x else -x

/-- The Newton / Babylonian loop of `sqrt` (lines 293-296), state
`(y, w)`: `while (y < w) { w = y; y = (z / y + y) / 2 }; return w`.
The loop strictly decreases `w`, so with fuel `w + 1` the fuel never
runs out; fuel only makes the recursion structural. -/
def sqrtGo (z : Nat) : Nat → Nat → Nat → Nat
  | 0, _, w => w
  | fuel + 1, y, w => if y < w then sqrtGo z fuel ((z / y + y) / 2) y else w

/-- Function `sqrt` (OutbreakTracking.sol lines 286-299): integer square root by
Newton's method, seeded `y = (z+1)/2`, `w = z`; returns 0 for
non-positive input. -/
def sqrtSol (x : Int) : Int :=
  if x ≤ 0 then 0
  else
    let z := x.toNat
    Int.ofNat (sqrtGo z (z + 1) ((z + 1) / 2) z)

/-- Degrees-scaled-by-10^6 to "radians": `(v * 3141592) / (180 * 1e6)`
(lines 249-252). -/
def degToRad (v : Int) : Int := Int.tdiv (v * 3141592) (180 * 1000000)

/-- The east-west scale factor of `calculateDistance` (line 268):
`cosLat1 = ((90 * precision) - abs(coord1.latitude / precision)) * precision
/ (90 * precision)`.  Note the latitude is divided by `precision`
(yielding whole degrees) before the subtraction. -/
def cosLatFactor (lat : Int) : Int :=
  Int.tdiv ((90 * 1000000 - solAbs (Int.tdiv lat 1000000)) * 1000000) (90 * 1000000)

/-- Modelled from the spec (§4.2 step 3): the east-west factor the spec
states, `(90×10⁶ − |lat1_deg|) / 90×10⁶` in six-decimal fixed point,
with `lat1_deg` the six-decimal fixed-point latitude itself. -/
def cosLatFactorSpec (lat : Int) : Int :=
  Int.tdiv ((90 * 1000000 - solAbs lat) * 1000000) (90 * 1000000)

/-- The coordinate-level core of `calculateDistance`
(OutbreakTracking.sol lines 237-278, after the two parses). -/
def distCoords (c1 c2 : Coordinate) : Nat :=
  let earthRadius : Int := 6371000
  let precision : Int := 1000000
  let lat1Rad := degToRad c1.latitude
  let lon1Rad := degToRad c1.longitude
  let lat2Rad := degToRad c2.latitude
  let lon2Rad := degToRad c2.longitude
  let dLat := lat2Rad - lat1Rad
  let dLon := lon2Rad - lon1Rad
  let cosLat1 := cosLatFactor c1.latitude
  let x := Int.tdiv (dLat * earthRadius) precision
  let y := Int.tdiv (dLon * earthRadius * cosLat1) (precision * precision)
  (sqrtSol (x * x + y * y)).toNat

/-- Function `calculateDistance` (lines 237-278): parse `loc1`, then `loc2`, then
the integer Pythagorean approximation. -/
def calculateDistance (loc1 loc2 : String) : Except SolError Nat :=
  match parseCoordinate loc1 with
  | .error e => .error e
  | .ok c1 =>
    match parseCoordinate loc2 with
    | .error e => .error e
    | .ok c2 => .ok (distCoords c1 c2)

/-- Function `isWithinRadius` (lines 228-234). -/
def isWithinRadius (loc1 loc2 : String) (radius : Nat) : Except SolError (Bool × Nat) :=
  match calculateDistance loc1 loc2 with
  | .error e => .error e
  | .ok d => .ok (decide (d ≤ radius), d)

/-- The value `type(uint256).max`, the initial `closestDistance` of
`checkProximity` (line 89). -/
def uintMax : Nat := 2 ^ 256 - 1

/-- The scanning loop of `checkProximity` (lines 93-101), with loop
state `(closestDistance, closestIndex, foundInRadius)` and `i` the
index of the next entry. -/
def proxLoop (radius : Nat) (q : String) :
    List OutbreakLocation → Nat → Nat → Nat → Bool → Except SolError (Nat × Nat × Bool)
  | [], _, closestDistance, closestIndex, found => .ok (closestDistance, closestIndex, found)
  | e :: es, i, closestDistance, closestIndex, found =>
    match isWithinRadius q e.location radius with
    | .error err => .error err
    | .ok (inR, d) =>
      if inR ∧ d < closestDistance then proxLoop radius q es (i + 1) d i true
      else proxLoop radius q es (i + 1) closestDistance closestIndex found

/-- Array indexing used after the scan; in the contract the index is
always in range when `foundInRadius` holds. -/
def getEntry (l : List OutbreakLocation) (i : Nat) : OutbreakLocation :=
  l.getD i ⟨"", 0, 0⟩

/-- Function `checkProximity` (OutbreakTracking.sol lines 87-108). -/
def checkProximity (s : RegistryState) (q : String) :
    Except SolError (Bool × String × Nat × Nat) :=
  match proxLoop s.outbreakRadius q s.outbreakLocations 0 uintMax 0 false with
  | .error e => .error e
  | .ok (closestDistance, closestIndex, found) =>
    if found then
      .ok (true, (getEntry s.outbreakLocations closestIndex).location,
        (getEntry s.outbreakLocations closestIndex).infectedCount, closestDistance)
    else .ok (false, "", 0, 0)

/-- The exact-match scan of `reportInfection` (lines 57-68): bump the
first entry whose location string equals `loc` (break after it),
refreshing its timestamp; `none` when there is no match.  Also returns
the bumped count for the `PotentialOutbreak` notification. -/
def bumpFirstMatch (loc : String) (now : Nat) :
    List OutbreakLocation → Option (List OutbreakLocation × Nat)
  | [] => none
  | e :: es =>
    if e.location = loc then
      some ({ e with infectedCount := e.infectedCount + 1, timestamp := now } :: es,
        e.infectedCount + 1)
    else
      match bumpFirstMatch loc now es with
      | some (es', c) => some (e :: es', c)
      | none => none

/-- Function `checkAndMergeOutbreaks` (OutbreakTracking.sol lines 122-138): for
every entry whose location differs from `newLoc`, parse both strings
and emit a secondary `PotentialOutbreak` when within the radius. -/
def mergeScan (radius : Nat) (newLoc : String) (now : Nat) :
    List OutbreakLocation → Except SolError (List Notification)
  | [] => .ok []
  | e :: es =>
    if e.location = newLoc then mergeScan radius newLoc now es
    else
      match isWithinRadius e.location newLoc radius with
      | .error err => .error err
      | .ok (inR, _) =>
        match mergeScan radius newLoc now es with
        | .error err => .error err
        | .ok ns =>
          .ok ((if inR then [Notification.potentialOutbreak newLoc e.infectedCount now] else [])
            ++ ns)

/-- Function `reportInfection` (OutbreakTracking.sol lines 44-85).  Returns the
post-state and the notifications emitted, or the revert that rolls the
whole call back. -/
def reportInfection (now : Nat) (s : RegistryState) (addr : Nat) (loc : String)
    (testResult : Bool) : Except SolError (RegistryState × List Notification) :=
  if testResult then
    let ledgerNew := s.infectedIndividuals ++
      [{ individualAddress := addr, location := loc, testResult := testResult,
         timestamp := now }]
    let step : List OutbreakLocation × List Notification :=
      match bumpFirstMatch loc now s.outbreakLocations with
      | some (es, c) => (es, [Notification.potentialOutbreak loc c now])
      | none => (s.outbreakLocations ++ [{ location := loc, infectedCount := 1, timestamp := now }],
          [Notification.newInfection addr loc now])
    match mergeScan s.outbreakRadius loc now step.1 with
    | .error e => .error e
    | .ok ns2 =>
      .ok ({ s with infectedIndividuals := ledgerNew, outbreakLocations := step.1 },
        step.2 ++ ns2)
  else .ok (s, [])

/-- Function `reportNewLocation` (lines 110-119): a proximity check that emits
alerts but writes nothing (the returned state is always the input). -/
def reportNewLocation (s : RegistryState) (now caller : Nat) (loc : String) :
    Except SolError (RegistryState × List Notification) :=
  match checkProximity s loc with
  | .error e => .error e
  | .ok (found, oLoc, cnt, d) =>
    if found then
      .ok (s, [Notification.proximityAlert caller loc oLoc d,
        Notification.potentialOutbreak oLoc cnt now])
    else .ok (s, [])

/-- The exposure-counting loop of `checkExposureRisk` (lines 333-345),
with loop state `(exposed, exposureCount)`. -/
def exposureLoop (q : String) (radius : Nat) (now : Nat) (threshold : Nat) :
    List InfectedIndividual → Bool → Nat → Except SolError (Bool × Nat)
  | [], exposed, cnt => .ok (exposed, cnt)
  | r :: rs, exposed, cnt =>
    if now - r.timestamp > threshold then exposureLoop q radius now threshold rs exposed cnt
    else
      match isWithinRadius q r.location radius with
      | .error e => .error e
      | .ok (inR, _) =>
        if inR then exposureLoop q radius now threshold rs true (cnt + 1)
        else exposureLoop q radius now threshold rs exposed cnt

/-- Function `checkExposureRisk` (OutbreakTracking.sol lines 328-348). -/
def checkExposureRisk (s : RegistryState) (now : Nat) (q : String) (threshold : Nat) :
    Except SolError (Bool × Nat) :=
  exposureLoop q s.outbreakRadius now threshold s.infectedIndividuals false 0

/-- Function `setOutbreakRadius` (lines 302-304) with the `onlyOwner` modifier. -/
def setOutbreakRadius (s : RegistryState) (caller : Nat) (newRadius : Nat) :
    Except SolError RegistryState :=
  if caller = s.owner then .ok { s with outbreakRadius := newRadius }
  else .error .notAuthorized

/-- The total distance an entry is at from an (already validated) query:
`calculateDistance` with its error branch defaulted.  Used only to state
properties; under the parse-success hypotheses it coincides with the
contract's distance. -/
def distOf (q : String) (e : OutbreakLocation) : Nat :=
  match calculateDistance q e.location with
  | .ok d => d
  | .error _ => 0

/-- Uniqueness of entry location strings (spec §3 invariant). -/
def locsDistinct (l : List OutbreakLocation) : Prop :=
  (l.map (fun e => e.location)).Nodup

/-- Pointwise monotonicity of `infectedCount` over existing indices
(spec §3 invariant). -/
def countsMono (old new : List OutbreakLocation) : Prop :=
  ∀ i, i < old.length → (getEntry old i).infectedCount ≤ (getEntry new i).infectedCount

/-! ## Helper lemmas about the value parser -/

/-- Once `foundDecimal` is set, a further `'.'` anywhere in the rest of
the substring is a no-op for the scanning loop. -/
theorem parseValueGo_skip_dot (b : List Char) : ∀ (c : List Char) (r m : Int),
    parseValueGo (b ++ '.' :: c) r m true = parseValueGo (b ++ c) r m true := by
  induction b with
  | nil => intro c r m; simp [parseValueGo]
  | cons x xs ih =>
    intro c r m
    by_cases hx : x = '.'
    · simp [parseValueGo, hx, ih]
    · simp only [List.cons_append, parseValueGo, if_neg hx]
      cases hd : digitVal x with
      | error e => simp [hd]
      | ok d => simp [hd, ih]

/-- The scanning loop gives the same outcome whether or not a second
`'.'` is present after the first one. -/
theorem parseValueGo_second_dot (a : List Char) : ∀ (b c : List Char) (r m : Int) (fd : Bool),
    parseValueGo (a ++ '.' :: b ++ '.' :: c) r m fd
      = parseValueGo (a ++ '.' :: (b ++ c)) r m fd := by
  induction a with
  | nil =>
    intro b c r m fd
    simp only [List.nil_append, parseValueGo, if_pos rfl]
    exact parseValueGo_skip_dot b c r m
  | cons x xs ih =>
    intro b c r m fd
    by_cases hx : x = '.'
    · subst hx
      simp only [List.cons_append, parseValueGo, if_pos rfl]
      exact ih b c r m true
    · simp only [List.cons_append, parseValueGo, if_neg hx]
      cases hd : digitVal x with
      | error e => simp [hd]
      | ok d =>
        cases fd <;> simp only [hd, if_pos rfl, if_neg, Bool.false_eq_true,
          not_false_eq_true, ite_false, ite_true] <;> exact ih b c _ _ _

/-- Helper: `parseCoordinateValue` only looks at the sign flag and at the run of
the scanning loop on the de-signed characters. -/
theorem parseCoordinateValue_congr (s t : String)
    (hneg : (stripNeg s.data).1 = (stripNeg t.data).1)
    (hgo : parseValueGo (stripNeg s.data).2 0 1000000 false
         = parseValueGo (stripNeg t.data).2 0 1000000 false) :
    parseCoordinateValue s = parseCoordinateValue t := by
  simp only [parseCoordinateValue]
  rw [hgo, hneg]

/-- Dots alone never change the loop state once `foundDecimal` holds. -/
theorem parseValueGo_dots_true (n : Nat) : ∀ (r m : Int),
    parseValueGo (List.replicate n '.') r m true = .ok (r, m, true) := by
  induction n with
  | zero => intro r m; rfl
  | succ k ih => intro r m; simp [List.replicate_succ, parseValueGo, ih]

/-! ## Concrete states used in the examples -/

/-- A freshly constructed registry (constructor with radius 5000). -/
def freshState : RegistryState :=
  { owner := 0, outbreakRadius := 5000, infectedIndividuals := [], outbreakLocations := [] }

/-- The state reached from `freshState` by one positive report at
`"10.000000,20.000000"` at time 100. -/
def reportedState : RegistryState :=
  ⟨0, 5000, [⟨1, "10.000000,20.000000", true, 100⟩], [⟨"10.000000,20.000000", 1, 100⟩]⟩

/-! ## C5 -/

/-- C5, counterexample: a latitude substring with two `'.'` characters
does not fail — `"1.2.3,4"` parses successfully (the digits after the
second dot keep extending the fractional part). -/
theorem parseCoordinate_second_dot_accepted_cex :
    parseCoordinate "1.2.3,4" = Except.ok { latitude := 230001, longitude := 4000000 } := rfl

/-- C5, amended: only the first `','` of the whole string is the
separator, but a second `'.'` inside a substring does not raise
`ParseError`; the value parser simply skips it, so the substring parses
exactly as it would with the second dot deleted. -/
theorem parseCoordinateValue_second_dot_skipped (a b c : List Char) :
    parseCoordinateValue ⟨a ++ '.' :: b ++ '.' :: c⟩
      = parseCoordinateValue ⟨a ++ '.' :: (b ++ c)⟩ := by
  apply parseCoordinateValue_congr
  · cases a with
    | nil => rfl
    | cons x xs =>
      by_cases hx : x = '-'
      · subst hx; simp [stripNeg]
      · simp [stripNeg, hx]
  · cases a with
    | nil => exact parseValueGo_second_dot [] b c 0 1000000 false
    | cons x xs =>
      by_cases hx : x = '-'
      · subst hx
        simp only [List.cons_append, stripNeg]
        exact parseValueGo_second_dot xs b c 0 1000000 false
      · simp only [List.cons_append, stripNeg, if_neg hx]
        exact parseValueGo_second_dot (x :: xs) b c 0 1000000 false

/-! ## C10 -/

/-- C10: a substring with a leading `'-'` or consisting only of `'.'`
characters — no digits at all — parses successfully to 0 instead of
failing, and the whole string `"-,."` parses to the coordinate (0, 0). -/
theorem parseCoordinateValue_no_digits_zero :
    (∀ n : Nat, parseCoordinateValue ⟨'-' :: List.replicate n '.'⟩ = Except.ok 0) ∧
    (∀ n : Nat, parseCoordinateValue ⟨List.replicate (n + 1) '.'⟩ = Except.ok 0) ∧
    parseCoordinate "-,." = Except.ok { latitude := 0, longitude := 0 } := by
  refine ⟨?_, ?_, rfl⟩
  · intro n
    cases n with
    | zero => rfl
    | succ k =>
      simp [parseCoordinateValue, stripNeg, List.replicate_succ, parseValueGo,
        parseValueGo_dots_true]
  · intro n
    simp [parseCoordinateValue, stripNeg, List.replicate_succ, parseValueGo,
      parseValueGo_dots_true]

/-! ## C3 -/

/-- C3: the east-west factor the code computes is not the spec's
`(90×10⁶ − |lat1_deg|) / 90×10⁶` in six-decimal fixed point: at the
latitude 45×10⁶ (the parse of `"45"`, as in `"45,90"`) the code divides
the latitude down to whole degrees first and yields 999999 (≈ 1.0),
where the spec's formula yields 500000 (= 0.5). -/
theorem cosLatFactor_code_bug :
    parseCoordinate "45,90" = Except.ok { latitude := 45000000, longitude := 90000000 } ∧
    cosLatFactor 45000000 = 999999 ∧
    cosLatFactorSpec 45000000 = 500000 ∧
    cosLatFactor 45000000 ≠ cosLatFactorSpec 45000000 := by
  refine ⟨rfl, rfl, rfl, ?_⟩
  decide

/-! ## C9 -/

/-- C9: at the failing input `"1.2345678"` (fractional part of seven
digits) the parser succeeds and the seventh fractional digit
contributes zero — the result is that of `"1.234567"` — but the value
is 234568, not the six-decimal fixed-point truncation 1234567 of the
written number: the integer part is never scaled by 10⁶ once a decimal
point is present. -/
theorem parseCoordinateValue_integer_part_unscaled :
    parseCoordinateValue "1.2345678" = Except.ok 234568 ∧
    parseCoordinateValue "1.234567" = Except.ok 234568 ∧
    (234568 : Int) ≠ 1234567 := by
  refine ⟨rfl, rfl, ?_⟩
  decide

/-! ## C2 -/

/-- C2, counterexample: the distance estimator is not symmetric.  With
the valid coordinate strings `"0,0"` and `"45,90"` the two orders give
11188770 and 11188761 meters: the east-west factor is computed from the
first argument's latitude only. -/
theorem calculateDistance_asymmetric_cex :
    calculateDistance "0,0" "45,90" = Except.ok 11188770 ∧
    calculateDistance "45,90" "0,0" = Except.ok 11188761 ∧
    calculateDistance "0,0" "45,90" ≠ calculateDistance "45,90" "0,0" := by
  refine ⟨rfl, rfl, ?_⟩
  intro h
  have h2 : (Except.ok 11188770 : Except SolError Nat) = Except.ok 11188761 := by
    calc (Except.ok 11188770 : Except SolError Nat)
        = calculateDistance "0,0" "45,90" := rfl
      _ = calculateDistance "45,90" "0,0" := h
      _ = Except.ok 11188761 := rfl
  injection h2 with h3
  exact absurd h3 (by decide)

/-- The coordinate-level distance is symmetric whenever the two
latitudes produce the same east-west factor: all the signed
intermediate quantities then negate exactly (Solidity division
truncates toward zero, so negation commutes with it), and the sum of
squares is unchanged. -/
theorem distCoords_symm (ca cb : Coordinate)
    (hcos : cosLatFactor ca.latitude = cosLatFactor cb.latitude) :
    distCoords ca cb = distCoords cb ca := by
  simp only [distCoords]
  rw [← hcos]
  have e1 : degToRad ca.latitude - degToRad cb.latitude
      = -(degToRad cb.latitude - degToRad ca.latitude) := by ring
  have e2 : degToRad ca.longitude - degToRad cb.longitude
      = -(degToRad cb.longitude - degToRad ca.longitude) := by ring
  simp only [e1, e2, neg_mul, Int.neg_tdiv]
  congr 1
  congr 1
  ring

/-- C2, amended: `distance(A, B) = distance(B, A)` holds whenever the
east-west factor computed from A's parsed latitude equals the one
computed from B's (in particular whenever the whole-degree magnitudes
of the two latitudes agree); the unrestricted claim fails. -/
theorem calculateDistance_symm_of_cosFactor_eq (A B : String) (ca cb : Coordinate)
    (ha : parseCoordinate A = Except.ok ca) (hb : parseCoordinate B = Except.ok cb)
    (hcos : cosLatFactor ca.latitude = cosLatFactor cb.latitude) :
    calculateDistance A B = calculateDistance B A := by
  simp only [calculateDistance, ha, hb]
  exact congrArg Except.ok (distCoords_symm ca cb hcos)

/-- C2, witness: two concrete valid coordinate strings with equal
east-west factors, for which the amended symmetry theorem applies. -/
theorem calculateDistance_symm_witness :
    calculateDistance "1.000000,2.000000" "1.500000,3.000000"
      = calculateDistance "1.500000,3.000000" "1.000000,2.000000" :=
  calculateDistance_symm_of_cosFactor_eq "1.000000,2.000000" "1.500000,3.000000"
    ⟨1, 2⟩ ⟨500001, 3⟩ rfl rfl rfl

/-! ## C6 -/

/-- C6, counterexample: after the positive report at
`"10.000000,20.000000"` with radius 5000, the proximity check at
`"10.000001,20.000001"` does return found=true with that matched
location, but the reported distance is 0, not strictly greater than 0:
the one-microdegree offset vanishes in the integer arithmetic. -/
theorem checkProximity_zero_distance_cex :
    ¬ ∃ d, checkProximity reportedState "10.000001,20.000001"
        = Except.ok (true, "10.000000,20.000000", 1, d) ∧ 0 < d ∧ d < 5000 := by
  rintro ⟨d, h, hd, -⟩
  have h0 : checkProximity reportedState "10.000001,20.000001"
      = Except.ok (true, "10.000000,20.000000", 1, 0) := rfl
  rw [h0] at h
  injection h with h1
  injection h1 with e1 e2
  injection e2 with e3 e4
  injection e4 with e5 e6
  omega

/-- C6, amended: the scenario returns found=true, the matched location
`"10.000000,20.000000"`, its count 1, and distance exactly 0 (which is
within the radius 5000 but not strictly positive). -/
theorem checkProximity_endToEnd_amended :
    reportInfection 100 freshState 1 "10.000000,20.000000" true
      = Except.ok (reportedState, [Notification.newInfection 1 "10.000000,20.000000" 100]) ∧
    checkProximity reportedState "10.000001,20.000001"
      = Except.ok (true, "10.000000,20.000000", 1, 0) := ⟨rfl, rfl⟩

/-! ## C1 and C4: the counterexamples -/

/-- C1, counterexample: on a registry with no other entries, a positive
report with the malformed location `"bad"` does not fail with
`ParseError`: it appends the ledger record, creates the entry, and
emits the notification — the merge scan skips the (only) entry, whose
location equals the input, so nothing is ever parsed. -/
theorem reportInfection_malformed_accepted_cex :
    parseCoordinate "bad" = Except.error SolError.parseError ∧
    reportInfection 5 freshState 7 "bad" true
      = Except.ok (⟨0, 5000, [⟨7, "bad", true, 5⟩], [⟨"bad", 1, 5⟩]⟩,
          [Notification.newInfection 7 "bad" 5]) := ⟨rfl, rfl⟩

/-- C4, counterexample: on an empty ledger, `checkExposureRisk` with the
malformed query location `"bad"` returns (false, 0) instead of failing
with `ParseError` — the loop body that parses the query never runs. -/
theorem checkExposureRisk_malformed_empty_cex :
    parseCoordinate "bad" = Except.error SolError.parseError ∧
    checkExposureRisk freshState 100 "bad" 50 = Except.ok (false, 0) := ⟨rfl, rfl⟩

/-! ## C1, amended -/

/-- Helper: `checkAndMergeOutbreaks` reverts whenever the reported location is
malformed and some scanned entry's location differs from it: the first
differing entry triggers `isWithinRadius`, which parses the stored
location and then the reported one. -/
theorem mergeScan_error_of_exists_diff (radius now : Nat) (loc : String) (err : SolError)
    (hp : parseCoordinate loc = Except.error err) :
    ∀ l : List OutbreakLocation, (∃ e ∈ l, e.location ≠ loc) →
      ∃ err2, mergeScan radius loc now l = Except.error err2 := by
  intro l
  induction l with
  | nil => rintro ⟨e, he, -⟩; exact absurd he (List.not_mem_nil e)
  | cons e es ih =>
    rintro ⟨w, hw, hwne⟩
    by_cases he : e.location = loc
    · have hwes : w ∈ es := by
        rcases List.mem_cons.mp hw with h | h
        · exact absurd (h ▸ he) hwne
        · exact h
      obtain ⟨err2, h2⟩ := ih ⟨w, hwes, hwne⟩
      exact ⟨err2, by simp [mergeScan, he, h2]⟩
    · cases hpe : parseCoordinate e.location with
      | error err1 =>
        exact ⟨err1, by simp [mergeScan, he, isWithinRadius, calculateDistance, hpe]⟩
      | ok c1 =>
        exact ⟨err, by simp [mergeScan, he, isWithinRadius, calculateDistance, hpe, hp]⟩

/-- A successful exact-match bump keeps the list of location strings
unchanged. -/
theorem bumpFirstMatch_locations (loc : String) (now : Nat) :
    ∀ (l l' : List OutbreakLocation) (c : Nat), bumpFirstMatch loc now l = some (l', c) →
      l'.map (fun e => e.location) = l.map (fun e => e.location) := by
  intro l
  induction l with
  | nil => intro l' c h; simp [bumpFirstMatch] at h
  | cons e es ih =>
    intro l' c h
    by_cases he : e.location = loc
    · simp only [bumpFirstMatch, if_pos he] at h
      obtain ⟨h1, -⟩ := Prod.mk.injEq .. ▸ Option.some.inj h
      subst h1
      simp
    · simp only [bumpFirstMatch, if_neg he] at h
      cases hb : bumpFirstMatch loc now es with
      | none => rw [hb] at h; exact absurd h (by simp)
      | some p =>
        rw [hb] at h
        obtain ⟨h1, -⟩ := Prod.mk.injEq .. ▸ Option.some.inj h
        subst h1
        simpa using ih p.1 p.2 hb

/-- C1, amended: a positive report with a malformed location string
fails with `ParseError` — rolling the whole call back — provided the
prior registry contains at least one entry whose location string
differs from the reported one; (by `reportInfection_malformed_accepted_cex`,
with no such entry the malformed report is accepted and stored). -/
theorem reportInfection_malformed_aborts (now addr : Nat) (s : RegistryState)
    (loc : String) (err : SolError)
    (hp : parseCoordinate loc = Except.error err)
    (hdiff : ∃ e ∈ s.outbreakLocations, e.location ≠ loc) :
    ∃ err2, reportInfection now s addr loc true = Except.error err2 := by
  obtain ⟨w, hw, hwne⟩ := hdiff
  simp only [reportInfection, if_pos rfl]
  cases hb : bumpFirstMatch loc now s.outbreakLocations with
  | none =>
    have hex : ∃ e ∈ s.outbreakLocations ++ [⟨loc, 1, now⟩], e.location ≠ loc :=
      ⟨w, List.mem_append_left _ hw, hwne⟩
    obtain ⟨err2, h2⟩ := mergeScan_error_of_exists_diff s.outbreakRadius now loc err hp _ hex
    exact ⟨err2, by simp [hb, h2]⟩
  | some p =>
    have hmap := bumpFirstMatch_locations loc now s.outbreakLocations p.1 p.2 (by simpa using hb)
    have hex : ∃ e ∈ p.1, e.location ≠ loc := by
      have hmem : w.location ∈ p.1.map (fun e => e.location) := by
        rw [hmap]; exact List.mem_map_of_mem _ hw
      obtain ⟨w', hw', hweq⟩ := List.mem_map.mp hmem
      exact ⟨w', hw', hweq ▸ hwne⟩
    obtain ⟨err2, h2⟩ := mergeScan_error_of_exists_diff s.outbreakRadius now loc err hp _ hex
    exact ⟨err2, by simp [hb, h2]⟩

/-- C1, witness: with one prior entry at the valid location `"0,0"`, the
malformed report `"bad"` is rejected. -/
theorem reportInfection_malformed_aborts_witness :
    ∃ err2, reportInfection 10 ⟨0, 5000, [], [⟨"0,0", 1, 1⟩]⟩ 3 "bad" true
      = Except.error err2 :=
  reportInfection_malformed_aborts 10 3 ⟨0, 5000, [], [⟨"0,0", 1, 1⟩]⟩ "bad"
    SolError.parseError rfl ⟨⟨"0,0", 1, 1⟩, by simp, by decide⟩

/-! ## C4, amended -/

/-- The exposure loop reverts as soon as it reaches a record inside the
time window, because it parses the (malformed) query location first. -/
theorem exposureLoop_error_of_recent (q : String) (radius now threshold : Nat)
    (err : SolError) (hq : parseCoordinate q = Except.error err) :
    ∀ (l : List InfectedIndividual) (exposed : Bool) (cnt : Nat),
      (∃ r ∈ l, now - r.timestamp ≤ threshold) →
      exposureLoop q radius now threshold l exposed cnt = Except.error err := by
  intro l
  induction l with
  | nil => rintro exposed cnt ⟨r, hr, -⟩; exact absurd hr (List.not_mem_nil r)
  | cons r rs ih =>
    rintro exposed cnt ⟨w, hw, hwin⟩
    by_cases hskip : now - r.timestamp > threshold
    · have hwrs : w ∈ rs := by
        rcases List.mem_cons.mp hw with h | h
        · subst h; omega
        · exact h
      simp only [exposureLoop, if_pos hskip]
      exact ih exposed cnt ⟨w, hwrs, hwin⟩
    · simp [exposureLoop, hskip, isWithinRadius, calculateDistance, hq]

/-- C4, amended: `checkExposureRisk` with a malformed query location
fails with `ParseError` provided at least one ledger record lies inside
the time window; (by `checkExposureRisk_malformed_empty_cex`, with no
in-window record — in particular on an empty ledger — it returns
(false, 0) without ever parsing the query). -/
theorem checkExposureRisk_malformed_aborts (s : RegistryState) (now threshold : Nat)
    (q : String) (err : SolError)
    (hq : parseCoordinate q = Except.error err)
    (hrec : ∃ r ∈ s.infectedIndividuals, now - r.timestamp ≤ threshold) :
    checkExposureRisk s now q threshold = Except.error err :=
  exposureLoop_error_of_recent q s.outbreakRadius now threshold err hq
    s.infectedIndividuals false 0 hrec

/-- C4, witness: one in-window ledger record and the malformed query
`"bad"`. -/
theorem checkExposureRisk_malformed_aborts_witness :
    checkExposureRisk ⟨0, 5000, [⟨1, "0,0", true, 10⟩], []⟩ 10 "bad" 0
      = Except.error SolError.parseError :=
  checkExposureRisk_malformed_aborts ⟨0, 5000, [⟨1, "0,0", true, 10⟩], []⟩ 10 0 "bad"
    SolError.parseError rfl ⟨⟨1, "0,0", true, 10⟩, by simp, by decide⟩

/-! ## C8 -/

/-- When the exact-match scan finds nothing, no entry's location equals
the reported one. -/
theorem bumpFirstMatch_none_locs (loc : String) (now : Nat) :
    ∀ l : List OutbreakLocation, bumpFirstMatch loc now l = none →
      ∀ e ∈ l, e.location ≠ loc := by
  intro l
  induction l with
  | nil => intro h e he; exact absurd he (List.not_mem_nil e)
  | cons e es ih =>
    intro h f hf
    by_cases he : e.location = loc
    · simp [bumpFirstMatch, he] at h
    · simp only [bumpFirstMatch, if_neg he] at h
      cases hb : bumpFirstMatch loc now es with
      | some p => rw [hb] at h; exact absurd h (by simp)
      | none =>
        rcases List.mem_cons.mp hf with hfe | hfe
        · exact hfe ▸ he
        · exact ih hb f hfe

/-- A successful exact-match bump never decreases any entry's count. -/
theorem bumpFirstMatch_counts (loc : String) (now : Nat) :
    ∀ (l l' : List OutbreakLocation) (c : Nat), bumpFirstMatch loc now l = some (l', c) →
      countsMono l l' := by
  intro l
  induction l with
  | nil => intro l' c h; simp [bumpFirstMatch] at h
  | cons e es ih =>
    intro l' c h
    by_cases he : e.location = loc
    · simp only [bumpFirstMatch, if_pos he] at h
      obtain ⟨h1, -⟩ := Prod.mk.injEq .. ▸ Option.some.inj h
      subst h1
      intro i hi
      cases i with
      | zero => exact Nat.le_succ _
      | succ j => simp [getEntry]
    · simp only [bumpFirstMatch, if_neg he] at h
      cases hb : bumpFirstMatch loc now es with
      | none => rw [hb] at h; exact absurd h (by simp)
      | some p =>
        rw [hb] at h
        obtain ⟨h1, -⟩ := Prod.mk.injEq .. ▸ Option.some.inj h
        subst h1
        intro i hi
        cases i with
        | zero => simp [getEntry]
        | succ j =>
          have := ih p.1 p.2 hb j (by simpa using hi)
          simpa [getEntry] using this

/-- Appending entries preserves the counts of the existing ones. -/
theorem countsMono_append (l t : List OutbreakLocation) : countsMono l (l ++ t) := by
  intro i hi
  unfold getEntry
  rw [List.getD_append _ _ _ _ hi]

/-- C8: the mutating operations preserve the registry invariants.
`reportInfection` keeps entry locations pairwise distinct, never
shrinks the ledger, and never decreases any entry's `infectedCount`;
`setOutbreakRadius` leaves entries and ledger untouched;
`reportNewLocation` never changes the state at all.  (The remaining
operations are reads, which the embedding types as state-free
functions, and on the error branch of any operation the state is
rolled back unchanged.) -/
theorem operations_preserve_invariants
    (now addr caller newRadius : Nat) (loc locB : String) (b : Bool)
    (s sB sC : RegistryState) (outA : RegistryState × List Notification)
    (outB : RegistryState) (outC : RegistryState × List Notification) :
    (reportInfection now s addr loc b = Except.ok outA →
      (locsDistinct s.outbreakLocations → locsDistinct outA.1.outbreakLocations) ∧
      s.infectedIndividuals.length ≤ outA.1.infectedIndividuals.length ∧
      countsMono s.outbreakLocations outA.1.outbreakLocations) ∧
    (setOutbreakRadius sB caller newRadius = Except.ok outB →
      outB.outbreakLocations = sB.outbreakLocations ∧
      outB.infectedIndividuals = sB.infectedIndividuals) ∧
    (reportNewLocation sC now caller locB = Except.ok outC → outC.1 = sC) := by
  refine ⟨?_, ?_, ?_⟩
  · intro h
    cases b with
    | false =>
      simp only [reportInfection, Bool.false_eq_true, if_neg, not_false_eq_true] at h
      obtain rfl := Except.ok.inj h
      exact ⟨fun hd => hd, Nat.le_refl _, fun i hi => Nat.le_refl _⟩
    | true =>
      simp only [reportInfection, if_pos rfl] at h
      cases hb : bumpFirstMatch loc now s.outbreakLocations with
      | some p =>
        rw [hb] at h
        simp only at h
        cases hm : mergeScan s.outbreakRadius loc now p.1 with
        | error e => rw [hm] at h; exact absurd h (by simp)
        | ok ns2 =>
          rw [hm] at h
          simp only at h
          obtain rfl := Except.ok.inj h
          have hmap := bumpFirstMatch_locations loc now s.outbreakLocations p.1 p.2
            (by simpa using hb)
          refine ⟨?_, by simp, ?_⟩
          · intro hd
            unfold locsDistinct at hd ⊢
            simpa [hmap] using hd
          · simpa using bumpFirstMatch_counts loc now s.outbreakLocations p.1 p.2
              (by simpa using hb)
      | none =>
        rw [hb] at h
        simp only at h
        cases hm : mergeScan s.outbreakRadius loc now
            (s.outbreakLocations ++ [⟨loc, 1, now⟩]) with
        | error e => rw [hm] at h; exact absurd h (by simp)
        | ok ns2 =>
          rw [hm] at h
          simp only at h
          obtain rfl := Except.ok.inj h
          refine ⟨?_, by simp, by simpa using countsMono_append s.outbreakLocations _⟩
          · intro hd
            unfold locsDistinct at hd ⊢
            simp only [List.map_append, List.map_cons, List.map_nil]
            rw [List.nodup_append]
            refine ⟨hd, by simp, ?_⟩
            intro a ha hb2
            simp only [List.mem_singleton] at hb2
            obtain ⟨e, he, heq⟩ := List.mem_map.mp ha
            exact bumpFirstMatch_none_locs loc now s.outbreakLocations hb e he
              (heq.trans hb2)
  · intro h
    by_cases hc : caller = sB.owner
    · simp only [setOutbreakRadius, if_pos hc] at h
      obtain rfl := Except.ok.inj h
      exact ⟨rfl, rfl⟩
    · simp [setOutbreakRadius, hc] at h
  · intro h
    cases hp : checkProximity sC locB with
    | error e => rw [reportNewLocation, hp] at h; exact absurd h (by simp)
    | ok r =>
      rw [reportNewLocation, hp] at h
      simp only at h
      by_cases hf : r.1 = true
      · rw [if_pos hf] at h
        obtain rfl := Except.ok.inj h
        rfl
      · rw [if_neg hf] at h
        obtain rfl := Except.ok.inj h
        rfl

/-- C8, witness: the three conclusions at concrete calls — a positive
report on a fresh registry, an owner radius update, and a presence
report that matches nothing. -/
theorem operations_preserve_invariants_witness :
    ((locsDistinct freshState.outbreakLocations → locsDistinct reportedState.outbreakLocations) ∧
      freshState.infectedIndividuals.length ≤ reportedState.infectedIndividuals.length ∧
      countsMono freshState.outbreakLocations reportedState.outbreakLocations) ∧
    ((⟨0, 9000, [], []⟩ : RegistryState).outbreakLocations = freshState.outbreakLocations ∧
      (⟨0, 9000, [], []⟩ : RegistryState).infectedIndividuals = freshState.infectedIndividuals) ∧
    (freshState, ([] : List Notification)).1 = freshState := by
  have h := operations_preserve_invariants 100 1 0 9000 "10.000000,20.000000" "bad" true
    freshState freshState freshState
    (reportedState, [Notification.newInfection 1 "10.000000,20.000000" 100])
    ⟨0, 9000, [], []⟩ (freshState, [])
  exact ⟨h.1 rfl, h.2.1 rfl, h.2.2 rfl⟩

/-! ## C7 -/

/-- The elements of `getEntry` at an append boundary. -/
theorem getEntry_append_cons : ∀ (P t : List OutbreakLocation) (e : OutbreakLocation),
    getEntry (P ++ e :: t) P.length = e := by
  intro P
  induction P with
  | nil => intro t e; rfl
  | cons p ps ih => intro t e; simpa [getEntry] using ih t e

/-- The accumulator invariant of the `checkProximity` scan, after the
first `k` entries of `E` have been processed: if nothing was found,
`closestDistance` is still `type(uint256).max` and no processed entry
was within the radius; if something was found, `closestIndex` points at
a processed in-radius entry whose distance is `closestDistance`, is
minimal among processed in-radius entries, and is strictly below every
in-radius entry before it. -/
def proxInv (radius : Nat) (q : String) (E : List OutbreakLocation) (k cd ci : Nat)
    (fnd : Bool) : Prop :=
  (fnd = false → cd = uintMax ∧ ∀ j, j < k → ¬ distOf q (getEntry E j) ≤ radius) ∧
  (fnd = true → ci < k ∧ distOf q (getEntry E ci) = cd ∧ cd ≤ radius ∧
    (∀ j, j < k → distOf q (getEntry E j) ≤ radius → cd ≤ distOf q (getEntry E j)) ∧
    (∀ j, j < ci → distOf q (getEntry E j) ≤ radius → cd < distOf q (getEntry E j)))

/-- Running the scan over the remaining entries preserves the invariant
(and never reverts, when every remaining entry's distance computes). -/
theorem proxLoop_invariant (radius : Nat) (q : String) (E : List OutbreakLocation) :
    ∀ (l P : List OutbreakLocation) (cd ci : Nat) (fnd : Bool),
      E = P ++ l →
      (∀ e ∈ l, ∃ dl, calculateDistance q e.location = Except.ok dl ∧ dl < uintMax) →
      proxInv radius q E P.length cd ci fnd →
      ∃ cd2 ci2 fnd2, proxLoop radius q l P.length cd ci fnd = Except.ok (cd2, ci2, fnd2) ∧
        proxInv radius q E E.length cd2 ci2 fnd2 := by
  intro l
  induction l with
  | nil =>
    intro P cd ci fnd hE hpar hinv
    refine ⟨cd, ci, fnd, rfl, ?_⟩
    have : E.length = P.length := by simp [hE]
    rwa [this]
  | cons e l2 ih =>
    intro P cd ci fnd hE hpar hinv
    obtain ⟨d, hd, hdmax⟩ := hpar e (List.mem_cons_self e l2)
    have hEk : getEntry E P.length = e := by rw [hE]; exact getEntry_append_cons P l2 e
    have hde : distOf q e = d := by unfold distOf; rw [hd]
    have hstep : proxLoop radius q (e :: l2) P.length cd ci fnd
        = if d ≤ radius ∧ d < cd then proxLoop radius q l2 (P.length + 1) d P.length true
          else proxLoop radius q l2 (P.length + 1) cd ci fnd := by
      simp [proxLoop, isWithinRadius, hd, decide_eq_true_eq]
    have hE2 : E = (P ++ [e]) ++ l2 := by rw [hE]; simp
    have hlen2 : (P ++ [e]).length = P.length + 1 := by simp
    have hpar2 : ∀ f ∈ l2, ∃ dl, calculateDistance q f.location = Except.ok dl ∧ dl < uintMax :=
      fun f hf => hpar f (List.mem_cons_of_mem e hf)
    rw [hstep]
    by_cases hcond : d ≤ radius ∧ d < cd
    · rw [if_pos hcond]
      have hinv2 : proxInv radius q E (P.length + 1) d P.length true := by
        refine ⟨by simp, fun _ => ⟨Nat.lt_succ_self _, hEk ▸ hde, hcond.1, ?_, ?_⟩⟩
        · intro j hj hwj
          rcases Nat.lt_succ_iff_lt_or_eq.mp hj with hj2 | hj2
          · cases fnd with
            | false => exact absurd hwj (hinv.1 rfl |>.2 j hj2)
            | true => exact Nat.le_of_lt (Nat.lt_of_lt_of_le hcond.2
                ((hinv.2 rfl).2.2.2.1 j hj2 hwj))
          · subst hj2; rw [hEk, hde]
        · intro j hj hwj
          cases fnd with
          | false => exact absurd hwj (hinv.1 rfl |>.2 j hj)
          | true => exact Nat.lt_of_lt_of_le hcond.2 ((hinv.2 rfl).2.2.2.1 j hj hwj)
      have := ih (P ++ [e]) d P.length true hE2 hpar2 (hlen2 ▸ hinv2)
      rwa [hlen2] at this
    · rw [if_neg hcond]
      have hinv2 : proxInv radius q E (P.length + 1) cd ci fnd := by
        constructor
        · intro hf
          obtain ⟨hcd, hnone⟩ := hinv.1 hf
          refine ⟨hcd, fun j hj => ?_⟩
          rcases Nat.lt_succ_iff_lt_or_eq.mp hj with hj2 | hj2
          · exact hnone j hj2
          · subst hj2
            rw [hEk, hde]
            intro hwj
            exact hcond ⟨hwj, hcd ▸ hdmax⟩
        · intro ht
          obtain ⟨hci, hdi, hcdr, hmin, hstrict⟩ := hinv.2 ht
          refine ⟨Nat.lt_succ_of_lt hci, hdi, hcdr, fun j hj hwj => ?_, hstrict⟩
          rcases Nat.lt_succ_iff_lt_or_eq.mp hj with hj2 | hj2
          · exact hmin j hj2 hwj
          · subst hj2
            rw [hEk, hde] at hwj ⊢
            exact Nat.le_of_not_lt (fun hlt => hcond ⟨hwj, hlt⟩)
      have := ih (P ++ [e]) cd ci fnd hE2 hpar2 (hlen2 ▸ hinv2)
      rwa [hlen2] at this

/-- C7: over any registry whose entries' distances to the (valid) query
all compute — and are below `type(uint256).max`, as every real
`uint256` square root is — `checkProximity` returns the in-radius entry
of minimal distance, ties resolved by strict less-than in favour of the
lowest insertion index, and `(false, "", 0, 0)` when no entry is within
the radius. -/
theorem checkProximity_returns_min (s : RegistryState) (q : String)
    (hpar : ∀ e ∈ s.outbreakLocations,
      ∃ dl, calculateDistance q e.location = Except.ok dl ∧ dl < uintMax) :
    ∃ out, checkProximity s q = Except.ok out ∧
      ((∀ j, j < s.outbreakLocations.length →
          ¬ distOf q (getEntry s.outbreakLocations j) ≤ s.outbreakRadius) →
        out = (false, "", 0, 0)) ∧
      ((∃ j, j < s.outbreakLocations.length ∧
          distOf q (getEntry s.outbreakLocations j) ≤ s.outbreakRadius) →
        ∃ i, i < s.outbreakLocations.length ∧
          distOf q (getEntry s.outbreakLocations i) ≤ s.outbreakRadius ∧
          out = (true, (getEntry s.outbreakLocations i).location,
            (getEntry s.outbreakLocations i).infectedCount,
            distOf q (getEntry s.outbreakLocations i)) ∧
          (∀ j, j < s.outbreakLocations.length →
            distOf q (getEntry s.outbreakLocations j) ≤ s.outbreakRadius →
            distOf q (getEntry s.outbreakLocations i)
              ≤ distOf q (getEntry s.outbreakLocations j)) ∧
          (∀ j, j < i → distOf q (getEntry s.outbreakLocations j) ≤ s.outbreakRadius →
            distOf q (getEntry s.outbreakLocations i)
              < distOf q (getEntry s.outbreakLocations j))) := by
  obtain ⟨cd2, ci2, fnd2, hloop, hinv⟩ := proxLoop_invariant s.outbreakRadius q
    s.outbreakLocations s.outbreakLocations [] uintMax 0 false rfl hpar
    ⟨fun _ => ⟨rfl, fun j hj => absurd hj (Nat.not_lt_zero j)⟩, fun h => absurd h (by simp)⟩
  simp only [List.length_nil] at hloop
  cases fnd2 with
  | false =>
    obtain ⟨-, hnone⟩ := hinv.1 rfl
    refine ⟨(false, "", 0, 0), ?_, fun _ => rfl, ?_⟩
    · unfold checkProximity
      rw [hloop]
      rfl
    · rintro ⟨j, hj, hwj⟩
      exact absurd hwj (hnone j hj)
  | true =>
    obtain ⟨hci, hdi, hcdr, hmin, hstrict⟩ := hinv.2 rfl
    refine ⟨(true, (getEntry s.outbreakLocations ci2).location,
      (getEntry s.outbreakLocations ci2).infectedCount, cd2), ?_, ?_, ?_⟩
    · unfold checkProximity
      rw [hloop]
      rfl
    · intro hall
      refine absurd ?_ (hall ci2 hci)
      rw [hdi]
      exact hcdr
    · intro _hex
      refine ⟨ci2, hci, ?_, ?_, ?_, ?_⟩
      · rw [hdi]; exact hcdr
      · rw [hdi]
      · intro j hj hwj
        rw [hdi]
        exact hmin j hj hwj
      · intro j hj hwj
        rw [hdi]
        exact hstrict j hj hwj

/-- C7, witness: three entries at distances 11111 (outside the radius
5000), 38 and 6 from the query; the theorem applies, the scan
succeeding. -/
theorem checkProximity_returns_min_witness :
    ∃ out, checkProximity ⟨0, 5000, [],
        [⟨"10.099999,20.000000", 3, 50⟩, ⟨"10.000400,20.000000", 2, 60⟩,
         ⟨"10.000000,20.000000", 1, 70⟩]⟩ "10.000100,20.000000" = Except.ok out := by
  have hpar : ∀ e ∈ ([⟨"10.099999,20.000000", 3, 50⟩, ⟨"10.000400,20.000000", 2, 60⟩,
      ⟨"10.000000,20.000000", 1, 70⟩] : List OutbreakLocation),
      ∃ dl, calculateDistance "10.000100,20.000000" e.location = Except.ok dl ∧
        dl < uintMax := by
    intro e he
    rcases List.mem_cons.mp he with h | he2
    · exact ⟨11111, by rw [h]; rfl, by decide⟩
    rcases List.mem_cons.mp he2 with h | he3
    · exact ⟨38, by rw [h]; rfl, by decide⟩
    rcases List.mem_cons.mp he3 with h | he4
    · exact ⟨6, by rw [h]; rfl, by decide⟩
    · exact absurd he4 (List.not_mem_nil e)
  obtain ⟨out, hout, -, -⟩ := checkProximity_returns_min ⟨0, 5000, [],
      [⟨"10.099999,20.000000", 3, 50⟩, ⟨"10.000400,20.000000", 2, 60⟩,
       ⟨"10.000000,20.000000", 1, 70⟩]⟩ "10.000100,20.000000" hpar
  exact ⟨out, hout⟩
